import Mathlib

/-!
# Verification of the Spinner reward-reveal reel engine

Shallow embedding of the core algorithms of the repository:

* `src/src/features/claw/utils.carousel.ts` — carousel geometry
  (`centerLineX`, `indexToCenterOffset`, `translateForIndex`,
  `getIndexFromX`) and target selection (`pickTargetIndex`);
* `src/unnamed/part_002` — the play lifecycle reducer
  (`clawMachineReducer`);
* `src/src/features/claw/ClawMachineV2.tsx` / `src/unnamed/part_007` —
  the weighted random draw (`selectWinningCard` / `selectPrizeByWeight`);
* `src/src/components/MultiRowSlider.tsx` — the per-row animation tick
  (`animate`), `freeze`, `snapPositionsToGrid` and `getVisibleCards`.

JavaScript numbers are modelled as rationals (`ℚ`), JavaScript integers
as `ℤ`/`ℕ`.  `Math.floor`, `Math.ceil` and `Math.round` are `jsFloor`,
`jsCeil` and `jsRound`; the JavaScript remainder operator `%` (truncated
towards zero) is `Int.tmod` on integers and `jsFmod` on rationals.
An out-of-bounds element access followed by a property read (which
throws `TypeError` in JavaScript) is modelled by an `Option` result
being `none`.
-/

namespace Spinner

/-- `Math.floor` on a rational (computable form). -/
def jsFloor (q : ℚ) : ℤ := q.floor

/-- `Math.ceil` on a rational: `Math.ceil x = -Math.floor (-x)`. -/
def jsCeil (q : ℚ) : ℤ := -jsFloor (-q)

/-- `Math.round` on a rational: JavaScript rounds half-up,
`Math.round x = Math.floor (x + 0.5)`. -/
def jsRound (q : ℚ) : ℤ := jsFloor (q + 1/2)

theorem jsFloor_eq (q : ℚ) : jsFloor q = ⌊q⌋ := by
  rw [jsFloor, Rat.floor_def, Rat.floor_def']

theorem jsCeil_eq (q : ℚ) : jsCeil q = ⌈q⌉ := by
  rw [jsCeil, jsFloor_eq, Int.floor_neg, neg_neg]

theorem jsRound_eq (q : ℚ) : jsRound q = ⌊q + 1/2⌋ := jsFloor_eq _

/-! ## Carousel geometry (`utils.carousel.ts`) -/

/-- `centerLineX(VIEW_W) = VIEW_W / 2`. -/
def centerLineX (VIEW_W : ℚ) : ℚ := VIEW_W / 2

/-- `indexToCenterOffset(index, ITEM_W) = index * ITEM_W + ITEM_W / 2`. -/
def indexToCenterOffset (index : ℤ) (ITEM_W : ℚ) : ℚ :=
  (index : ℚ) * ITEM_W + ITEM_W / 2

/-- `translateForIndex(index, VIEW_W, ITEM_W) = centerOffset - centerLine`. -/
def translateForIndex (index : ℤ) (VIEW_W ITEM_W : ℚ) : ℚ :=
  indexToCenterOffset index ITEM_W - centerLineX VIEW_W

/-- `getIndexFromX(x, VIEW_W, ITEM_W) = Math.floor((centerLine - x) / ITEM_W)`. -/
def getIndexFromX (x VIEW_W ITEM_W : ℚ) : ℤ :=
  jsFloor ((centerLineX VIEW_W - x) / ITEM_W)

/-- C1: the round trip `getIndexFromX (translateForIndex i V W) V W`
evaluated at `i = 0`, `VIEW_W = 400`, `ITEM_W = 140` yields `2`, not `0`:
the two functions are not inverse to each other. -/
theorem c1_roundtrip_fails_at_zero :
    getIndexFromX (translateForIndex 0 400 140) 400 140 = 2 ∧ (2 : ℤ) ≠ 0 := by
  constructor
  · norm_num [getIndexFromX, translateForIndex, indexToCenterOffset, centerLineX,
      jsFloor_eq]
  · decide

/-! ## Target selection (`pickTargetIndex` in `utils.carousel.ts`) -/

/-- A catalog entry; only the `id` field is consulted by `pickTargetIndex`. -/
structure Item where
  id : String
deriving DecidableEq

/-- The element probe `baseItems[candidateIndex % baseLen]` of the scan loop:
JavaScript `%` truncates towards zero (`Int.tmod`), and an access at a
negative index yields `undefined`, so the subsequent `.id` read throws a
`TypeError` — modelled as `none`. -/
def itemAtJs (baseItems : List Item) (i : ℤ) : Option Item :=
  let baseIndex := Int.tmod i (baseItems.length : ℤ)
  if baseIndex < 0 then none else baseItems[baseIndex.toNat]?

/-- Outcome of the bounded scan loop in `pickTargetIndex`. -/
inductive ScanOutcome where
  | found (idx : ℤ)
  | exhausted
  | crash
deriving DecidableEq

/-- The `for (let i = 0; i < baseLen * 3; i++)` scan of `pickTargetIndex`,
starting at `candidateIndex` with `fuel` iterations remaining. -/
def pickScan (baseItems : List Item) (targetId : String) :
    ℤ → ℕ → ScanOutcome
  | _, 0 => .exhausted
  | candidateIndex, fuel + 1 =>
    match itemAtJs baseItems candidateIndex with
    | none => .crash
    | some item =>
      if item.id = targetId then .found candidateIndex
      else pickScan baseItems targetId (candidateIndex + 1) fuel

/-- `pickTargetIndex` (`utils.carousel.ts` lines 97–128).  The result is
`none` exactly when the scan throws on an out-of-bounds access; otherwise it
is the returned index: the first scan hit, else the closed-form fallback when
`findIndex` locates the target, else `minIndex` itself ("last resort"). -/
def pickTargetIndex (baseItems : List Item) (targetId : String)
    (fromIndex : ℤ) (minLaps : ℚ) : Option ℤ :=
  let baseLen : ℤ := baseItems.length
  let minDistance := jsCeil (minLaps * (baseLen : ℚ))
  let minIndex := fromIndex + minDistance
  match pickScan baseItems targetId minIndex (baseItems.length * 3) with
  | .found idx => some idx
  | .crash => none
  | .exhausted =>
    match baseItems.findIdx? (fun p => p.id == targetId) with
    | some targetBaseIndex =>
      let cyclesNeeded :=
        jsCeil (((minIndex - (targetBaseIndex : ℤ) : ℤ) : ℚ) / (baseLen : ℚ))
      some ((targetBaseIndex : ℤ) + cyclesNeeded * baseLen)
    | none => some minIndex

/-- Whether the scan matches at logical index `i`: the probed element exists
and its id equals `targetId`. -/
def matchesAtB (baseItems : List Item) (targetId : String) (i : ℤ) : Bool :=
  match itemAtJs baseItems i with
  | some item => item.id == targetId
  | none => false

theorem itemAtJs_of_nonneg (baseItems : List Item) (i : ℤ)
    (hi : 0 ≤ i) (hlen : 0 < baseItems.length) :
    itemAtJs baseItems i =
      baseItems[(i % (baseItems.length : ℤ)).toNat]? ∧
    ∃ it, itemAtJs baseItems i = some it := by
  have hlenZ : (0 : ℤ) < (baseItems.length : ℤ) := by exact_mod_cast hlen
  have htm : Int.tmod i (baseItems.length : ℤ) = i % (baseItems.length : ℤ) :=
    Int.tmod_eq_emod hi (le_of_lt hlenZ)
  have hnn : 0 ≤ i % (baseItems.length : ℤ) :=
    Int.emod_nonneg i (ne_of_gt hlenZ)
  have hlt : i % (baseItems.length : ℤ) < (baseItems.length : ℤ) :=
    Int.emod_lt_of_pos i hlenZ
  have hltN : (i % (baseItems.length : ℤ)).toNat < baseItems.length := by
    omega
  have hfirst : itemAtJs baseItems i =
      baseItems[(i % (baseItems.length : ℤ)).toNat]? := by
    rw [itemAtJs]
    simp only [htm, if_neg (not_lt.mpr hnn)]
  refine ⟨hfirst, baseItems.get ⟨(i % (baseItems.length : ℤ)).toNat, hltN⟩, ?_⟩
  rw [hfirst, List.getElem?_eq_getElem hltN]
  rfl

theorem itemAtJs_mem (baseItems : List Item) (i : ℤ) (it : Item)
    (h : itemAtJs baseItems i = some it) : it ∈ baseItems := by
  rw [itemAtJs] at h
  split at h
  · exact absurd h (by simp)
  · exact List.getElem?_mem h

/-- The bounded scan returns the first matching index at or after `start`,
provided some match exists within the fuel budget and `start` is
non-negative (so every probe is in bounds). -/
theorem pickScan_finds_least (baseItems : List Item) (targetId : String)
    (hlen : 0 < baseItems.length) (fuel : ℕ) :
    ∀ start : ℤ, 0 ≤ start →
      (∃ k : ℕ, k < fuel ∧ matchesAtB baseItems targetId (start + k) = true) →
      ∃ r : ℤ, pickScan baseItems targetId start fuel = .found r ∧
        start ≤ r ∧ matchesAtB baseItems targetId r = true ∧
        ∀ j : ℤ, start ≤ j → j < r →
          matchesAtB baseItems targetId j = false := by
  induction fuel with
  | zero =>
    intro start _ hex
    obtain ⟨k, hk, _⟩ := hex
    exact absurd hk (Nat.not_lt_zero k)
  | succ fuel ih =>
    intro start hstart hex
    obtain ⟨k, hk, hmatch⟩ := hex
    obtain ⟨-, it, hit⟩ := itemAtJs_of_nonneg baseItems start hstart hlen
    by_cases hid : it.id = targetId
    · refine ⟨start, ?_, le_refl start, ?_, ?_⟩
      · rw [pickScan, hit]
        simp [hid]
      · rw [matchesAtB, hit]
        simp [hid]
      · intro j h1 h2
        omega
    · have hmstart : matchesAtB baseItems targetId start = false := by
        rw [matchesAtB, hit]
        simp [hid]
      obtain ⟨k', rfl⟩ : ∃ k', k = k' + 1 := by
        refine ⟨k - 1, ?_⟩
        rcases Nat.eq_zero_or_pos k with rfl | hpos
        · rw [show start + ((0 : ℕ) : ℤ) = start by push_cast; ring] at hmatch
          rw [hmstart] at hmatch
          exact absurd hmatch (by simp)
        · omega
      have hshift : start + 1 + (k' : ℤ) = start + ((k' + 1 : ℕ) : ℤ) := by
        push_cast
        ring
      obtain ⟨r, hscan, hle, hm, hmin⟩ :=
        ih (start + 1) (by omega) ⟨k', by omega, by rw [hshift]; exact hmatch⟩
      refine ⟨r, ?_, by omega, hm, ?_⟩
      · rw [pickScan, hit]
        simp only [hid, if_false, ite_false]
        exact hscan
      · intro j h1 h2
        rcases eq_or_lt_of_le h1 with rfl | h1'
        · exact hmstart
        · exact hmin j (by omega) h2

/-- If the target id occurs in the catalog, a match exists within one full
catalog length of any non-negative starting index. -/
theorem matchesAtB_exists_within_len (baseItems : List Item) (targetId : String)
    (hmem : targetId ∈ baseItems.map Item.id) (start : ℤ) (hstart : 0 ≤ start) :
    ∃ k : ℕ, k < baseItems.length ∧
      matchesAtB baseItems targetId (start + k) = true := by
  obtain ⟨it, hmem', hid⟩ := List.mem_map.mp hmem
  obtain ⟨tb, htb, hget⟩ := List.getElem_of_mem hmem'
  have hlen : 0 < baseItems.length := Nat.lt_of_le_of_lt (Nat.zero_le tb) htb
  have hlenZ : (0 : ℤ) < (baseItems.length : ℤ) := by exact_mod_cast hlen
  refine ⟨(((tb : ℤ) - start) % (baseItems.length : ℤ)).toNat, ?_, ?_⟩
  · have := Int.emod_lt_of_pos ((tb : ℤ) - start) hlenZ
    have := Int.emod_nonneg ((tb : ℤ) - start) (ne_of_gt hlenZ)
    omega
  · have hnn : 0 ≤ ((tb : ℤ) - start) % (baseItems.length : ℤ) :=
      Int.emod_nonneg _ (ne_of_gt hlenZ)
    have hcast : (((((tb : ℤ) - start) % (baseItems.length : ℤ)).toNat : ℤ)) =
        ((tb : ℤ) - start) % (baseItems.length : ℤ) := Int.toNat_of_nonneg hnn
    have hpos : 0 ≤ start + ((((tb : ℤ) - start) % (baseItems.length : ℤ)).toNat : ℤ) := by
      omega
    obtain ⟨hacc, -⟩ := itemAtJs_of_nonneg baseItems _ hpos hlen
    have hmod : (start + ((((tb : ℤ) - start) % (baseItems.length : ℤ)).toNat : ℤ)) %
        (baseItems.length : ℤ) = (tb : ℤ) := by
      rw [hcast, Int.add_emod, Int.emod_emod_of_dvd _ dvd_rfl, ← Int.add_emod]
      have : start + ((tb : ℤ) - start) = (tb : ℤ) := by ring
      rw [this]
      exact Int.emod_eq_of_lt (by exact_mod_cast Nat.zero_le tb) (by exact_mod_cast htb)
    rw [matchesAtB, hacc, hmod]
    have : ((tb : ℤ)).toNat = tb := by omega
    rw [this, List.getElem?_eq_getElem htb]
    simp [hget, hid]

/-- C2: for a catalog containing the target id, non-negative `fromIndex`
and `minLaps ≥ 0`, `pickTargetIndex` returns the smallest candidate index at
or above `minIndex = fromIndex + ceil(minLaps * baseLen)` whose catalog id
matches; in particular the result is at least
`fromIndex + minLaps * baseLen`. -/
theorem c2_pickTargetIndex_least (baseItems : List Item) (targetId : String)
    (fromIndex : ℤ) (minLaps : ℚ)
    (hmem : targetId ∈ baseItems.map Item.id)
    (hfrom : 0 ≤ fromIndex) (hlaps : 0 ≤ minLaps) :
    ∃ r : ℤ,
      pickTargetIndex baseItems targetId fromIndex minLaps = some r ∧
      fromIndex + jsCeil (minLaps * ((baseItems.length : ℤ) : ℚ)) ≤ r ∧
      matchesAtB baseItems targetId r = true ∧
      (∀ j : ℤ, fromIndex + jsCeil (minLaps * ((baseItems.length : ℤ) : ℚ)) ≤ j →
        j < r → matchesAtB baseItems targetId j = false) ∧
      (fromIndex : ℚ) + minLaps * ((baseItems.length : ℤ) : ℚ) ≤ (r : ℚ) := by
  have hlen : 0 < baseItems.length := by
    rcases baseItems with - | ⟨a, l⟩
    · simp at hmem
    · simp
  have hceil0 : 0 ≤ jsCeil (minLaps * ((baseItems.length : ℤ) : ℚ)) := by
    rw [jsCeil_eq]
    exact Int.ceil_nonneg (mul_nonneg hlaps (by positivity))
  set minIndex := fromIndex + jsCeil (minLaps * ((baseItems.length : ℤ) : ℚ)) with hmi
  have hminnn : 0 ≤ minIndex := by omega
  obtain ⟨k, hk, hkm⟩ :=
    matchesAtB_exists_within_len baseItems targetId hmem minIndex hminnn
  have hk3 : k < baseItems.length * 3 := by omega
  obtain ⟨r, hscan, hle, hm, hmin⟩ :=
    pickScan_finds_least baseItems targetId hlen (baseItems.length * 3)
      minIndex hminnn ⟨k, hk3, hkm⟩
  refine ⟨r, ?_, hle, hm, hmin, ?_⟩
  · rw [pickTargetIndex]
    rw [hscan]
  · have h1 : (minIndex : ℚ) ≤ (r : ℚ) := by exact_mod_cast hle
    have h2 : minLaps * ((baseItems.length : ℤ) : ℚ) ≤
        (jsCeil (minLaps * ((baseItems.length : ℤ) : ℚ)) : ℚ) := by
      rw [jsCeil_eq]
      exact Int.le_ceil _
    rw [hmi] at h1
    push_cast at h1 h2 ⊢
    linarith

/-- Witness for C2: catalog `["a","b"]`, target `"b"`, `fromIndex = 1`,
`minLaps = 1/2`; the minimum index is `1 + ceil(1) = 2` and the first match
at or above it is `3`. -/
theorem c2_pickTargetIndex_least_witness :
    ∃ r : ℤ,
      pickTargetIndex [Item.mk "a", Item.mk "b"] "b" 1 (1/2) = some r ∧
      1 + jsCeil ((1/2) * ((((List.length [Item.mk "a", Item.mk "b"]) : ℤ)) : ℚ)) ≤ r ∧
      matchesAtB [Item.mk "a", Item.mk "b"] "b" r = true ∧
      (∀ j : ℤ,
        1 + jsCeil ((1/2) * ((((List.length [Item.mk "a", Item.mk "b"]) : ℤ)) : ℚ)) ≤ j →
        j < r → matchesAtB [Item.mk "a", Item.mk "b"] "b" j = false) ∧
      ((1 : ℤ) : ℚ) + (1/2) * ((((List.length [Item.mk "a", Item.mk "b"]) : ℤ)) : ℚ) ≤ (r : ℚ) :=
  c2_pickTargetIndex_least [Item.mk "a", Item.mk "b"] "b" 1 (1/2)
    (by decide) (by decide) (by norm_num)

/-- The 14-item catalog of the exact-stop scenario (ids `p0` … `p13`;
the target `p3` sits at catalog index 3). -/
def catalog14 : List Item :=
  [⟨"p0"⟩, ⟨"p1"⟩, ⟨"p2"⟩, ⟨"p3"⟩, ⟨"p4"⟩, ⟨"p5"⟩, ⟨"p6"⟩,
   ⟨"p7"⟩, ⟨"p8"⟩, ⟨"p9"⟩, ⟨"p10"⟩, ⟨"p11"⟩, ⟨"p12"⟩, ⟨"p13"⟩]

theorem pickTargetIndex_catalog14_eval :
    pickTargetIndex catalog14 "p3" 2 (3/2) = some 31 := by
  rw [pickTargetIndex]
  have h21 : jsCeil ((3/2 : ℚ) * (((catalog14.length : ℕ) : ℤ) : ℚ)) = 21 := by
    norm_num [jsCeil_eq, catalog14]
  rw [h21]
  have hscan : pickScan catalog14 "p3" (2 + 21) (catalog14.length * 3) =
      ScanOutcome.found 31 := by decide
  rw [hscan]

/-- C3 counterexample: in the exact-stop scenario (`catalog14`,
`fromIndex = 2`, `minLaps = 1.5`, so `minIndex = 23`), the code returns 31,
not the 24 the claim states (24 mod 14 = 10 ≠ 3). -/
theorem c3_counterexample :
    pickTargetIndex catalog14 "p3" 2 (3/2) = some 31 ∧
    (some (31 : ℤ) : Option ℤ) ≠ some 24 := by
  refine ⟨pickTargetIndex_catalog14_eval, ?_⟩
  decide

/-- C3 amended: offset −200 gives `fromIndex = 2`; `selectTarget` returns 31
(the earliest index ≥ 23 congruent to 3 mod 14), whose stop offset
`translateForIndex 31 400 140` is 4210. -/
theorem c3_exact_stop_scenario :
    getIndexFromX (-200) 400 140 = 2 ∧
    pickTargetIndex catalog14 "p3" 2 (3/2) = some 31 ∧
    translateForIndex 31 400 140 = 4210 := by
  refine ⟨?_, pickTargetIndex_catalog14_eval, ?_⟩
  · norm_num [getIndexFromX, centerLineX, jsFloor_eq]
  · norm_num [translateForIndex, indexToCenterOffset, centerLineX]

/-- When no catalog element matches, the scan runs out of fuel without
finding (or crashing, thanks to non-negative start and non-empty list). -/
theorem pickScan_exhausted (baseItems : List Item) (targetId : String)
    (hnot : ∀ it ∈ baseItems, ¬ it.id = targetId)
    (hlen : 0 < baseItems.length) (fuel : ℕ) :
    ∀ start : ℤ, 0 ≤ start →
      pickScan baseItems targetId start fuel = .exhausted := by
  induction fuel with
  | zero => intro start _; rfl
  | succ fuel ih =>
    intro start hstart
    obtain ⟨-, it, hit⟩ := itemAtJs_of_nonneg baseItems start hstart hlen
    have hmem := itemAtJs_mem baseItems start it hit
    rw [pickScan, hit]
    simp only [hnot it hmem, if_false, ite_false]
    exact ih (start + 1) (by omega)

/-- C6 amended: an absent target id does not fail: the scan exhausts, the
`findIndex` fallback misses, and `pickTargetIndex` silently returns
`minIndex = fromIndex + ceil(minLaps * baseLen)` itself. -/
theorem c6_absent_target_returns_minIndex (baseItems : List Item)
    (targetId : String) (fromIndex : ℤ) (minLaps : ℚ)
    (hnot : targetId ∉ baseItems.map Item.id)
    (hfrom : 0 ≤ fromIndex) (hlaps : 0 ≤ minLaps) :
    pickTargetIndex baseItems targetId fromIndex minLaps =
      some (fromIndex + jsCeil (minLaps * ((baseItems.length : ℤ) : ℚ))) := by
  have hnot' : ∀ it ∈ baseItems, ¬ it.id = targetId := by
    intro it hmem hid
    exact hnot (List.mem_map.mpr ⟨it, hmem, hid⟩)
  rcases Nat.eq_zero_or_pos baseItems.length with hlen | hlen
  · have hnil : baseItems = [] := List.length_eq_zero.mp hlen
    subst hnil
    rfl
  · have hceil0 : 0 ≤ jsCeil (minLaps * ((baseItems.length : ℤ) : ℚ)) := by
      rw [jsCeil_eq]
      exact Int.ceil_nonneg (mul_nonneg hlaps (by positivity))
    have hscan := pickScan_exhausted baseItems targetId hnot' hlen
      (baseItems.length * 3)
      (fromIndex + jsCeil (minLaps * ((baseItems.length : ℤ) : ℚ))) (by omega)
    rw [pickTargetIndex, hscan]
    have hfind : baseItems.findIdx? (fun p => p.id == targetId) = none := by
      rw [List.findIdx?_eq_none_iff]
      intro x hx
      simpa using hnot' x hx
    rw [hfind]

/-- Witness for C6 (amended): catalog `["a"]`, absent target `"z"`,
`fromIndex = 1`, `minLaps = 1`. -/
theorem c6_absent_target_returns_minIndex_witness :
    pickTargetIndex [Item.mk "a"] "z" 1 1 =
      some (1 + jsCeil ((1 : ℚ) * ((((List.length [Item.mk "a"]) : ℤ)) : ℚ))) :=
  c6_absent_target_returns_minIndex [Item.mk "a"] "z" 1 1
    (by decide) (by decide) (by norm_num)

/-- C6 counterexample: with target `"zzz"` absent from the one-item catalog,
`pickTargetIndex` neither throws nor reports an error — it silently returns
`minIndex = 0`. -/
theorem c6_counterexample :
    pickTargetIndex [Item.mk "a"] "zzz" 0 0 = some 0 ∧
    pickTargetIndex [Item.mk "a"] "zzz" 0 0 ≠ none := by
  have h0 : jsCeil ((0 : ℚ) * ((((List.length [Item.mk "a"]) : ℤ)) : ℚ)) = 0 := by
    norm_num [jsCeil_eq]
  have heval : pickTargetIndex [Item.mk "a"] "zzz" 0 0 = some 0 := by
    rw [pickTargetIndex, h0]
    have hscan : pickScan [Item.mk "a"] "zzz" (0 + 0)
        (List.length [Item.mk "a"] * 3) = ScanOutcome.exhausted := by decide
    rw [hscan]
    decide
  exact ⟨heval, by simp [heval]⟩

/-- C8 counterexample: a negative `fromIndex` (which `getIndexFromX` can
produce) makes the scan probe `baseItems[-5 % 2] = baseItems[-1]` —
truncated, not floored, modulo — so the access is out of bounds and the
`.id` read throws: the claim that every integer index is probed in bounds
via floored modulo fails. -/
theorem c8_counterexample :
    pickTargetIndex [Item.mk "a", Item.mk "b"] "a" (-5) 0 = none := by
  have h0 : jsCeil ((0 : ℚ) * ((((List.length [Item.mk "a", Item.mk "b"]) : ℤ)) : ℚ)) = 0 := by
    norm_num [jsCeil_eq]
  rw [pickTargetIndex, h0]
  have hscan : pickScan [Item.mk "a", Item.mk "b"] "a" (-5 + 0)
      (List.length [Item.mk "a", Item.mk "b"] * 3) = ScanOutcome.crash := by decide
  rw [hscan]

/-- C8 amended: for non-negative logical indices the probe is in bounds
(JavaScript `%` agrees with floored modulo there) and is periodic with
period `baseItems.length` for non-negative multiples. -/
theorem c8_itemAt_wellDefined_nonneg (baseItems : List Item) (i : ℤ) (k : ℕ)
    (hi : 0 ≤ i) (hlen : 0 < baseItems.length) :
    (∃ it, itemAtJs baseItems i = some it) ∧
    itemAtJs baseItems (i + (k : ℤ) * (baseItems.length : ℤ)) =
      itemAtJs baseItems i := by
  obtain ⟨hacc, hsome⟩ := itemAtJs_of_nonneg baseItems i hi hlen
  have hk0 : (0 : ℤ) ≤ (k : ℤ) * (baseItems.length : ℤ) :=
    mul_nonneg (Int.natCast_nonneg k) (Int.natCast_nonneg _)
  obtain ⟨hacc2, -⟩ := itemAtJs_of_nonneg baseItems
    (i + (k : ℤ) * (baseItems.length : ℤ)) (by omega) hlen
  refine ⟨hsome, ?_⟩
  rw [hacc, hacc2, Int.add_mul_emod_self]

/-- Witness for C8 (amended) at `i = 3`, `k = 2` over a two-item catalog. -/
theorem c8_itemAt_wellDefined_nonneg_witness :
    (∃ it, itemAtJs [Item.mk "a", Item.mk "b"] 3 = some it) ∧
    itemAtJs [Item.mk "a", Item.mk "b"]
        (3 + ((2 : ℕ) : ℤ) * ((List.length [Item.mk "a", Item.mk "b"] : ℕ) : ℤ)) =
      itemAtJs [Item.mk "a", Item.mk "b"] 3 :=
  c8_itemAt_wellDefined_nonneg [Item.mk "a", Item.mk "b"] 3 2
    (by decide) (by decide)

/-! ## Play lifecycle state machine (`src/unnamed/part_002`) -/

/-- `MachineState` from the domain types. -/
inductive MachineState where
  | idle
  | spinning
  | decelerating
  | grabbing
  | lifting
  | reveal
  | settle
deriving DecidableEq

/-- A prize; the reducer reads only `id` when storing `highlightId`. -/
structure Prize where
  id : String
  weight : ℚ
deriving DecidableEq

/-- `PlayResult` payload of `ATTACH_RESULT`. -/
structure PlayResult where
  playId : String
  prize : Prize
  serverLatencyMs : ℚ
deriving DecidableEq

/-- `ClaimResult` payload of `CLAIM`. -/
structure ClaimResult where
  playId : String
  prizeId : String
  success : Bool
deriving DecidableEq

/-- `ClawMachineInternalState`. -/
structure ClawMachineInternalState where
  state : MachineState
  playResult : Option PlayResult
  claimResult : Option ClaimResult
  currentX : ℚ
  highlightId : Option String
  error : Option String
deriving DecidableEq

/-- `ClawMachineAction`. -/
inductive ClawMachineAction where
  | play
  | attachResult (payload : PlayResult)
  | decelerate
  | grab
  | reveal
  | claim (payload : ClaimResult)
  | reset
  | setCurrentX (payload : ℚ)
  | error (payload : String)

/-- The `initialState` record of the hook. -/
def initialState : ClawMachineInternalState :=
  { state := .idle, playResult := none, claimResult := none,
    currentX := 0, highlightId := none, error := none }

/-- `clawMachineReducer` (`src/unnamed/part_002` lines 28–108), a total
function: every branch returns a state, no branch throws. -/
def clawMachineReducer (state : ClawMachineInternalState)
    (action : ClawMachineAction) : ClawMachineInternalState :=
  match action with
  | .play =>
    if state.state ≠ .idle then state
    else { state with
             state := .spinning, playResult := none,
             claimResult := none, error := none }
  | .attachResult payload =>
    if state.state ≠ .spinning then state
    else { state with
             playResult := some payload,
             highlightId := some payload.prize.id }
  | .decelerate =>
    if state.state ≠ .spinning ∧ state.state ≠ .decelerating then state
    else { state with state := .decelerating }
  | .grab =>
    if state.state ≠ .decelerating then state
    else { state with state := .grabbing }
  | .reveal =>
    if state.state ≠ .grabbing ∧ state.state ≠ .lifting then state
    else { state with state := .reveal }
  | .claim payload =>
    if state.state ≠ .reveal then state
    else { state with claimResult := some payload, state := .settle }
  | .reset => initialState
  | .setCurrentX payload => { state with currentX := payload }
  | .error payload => { state with error := some payload, state := .idle }

/-- An action dispatched from a source state the transition table does not
list as valid for it: `PLAY` outside `Idle`, `ATTACH_RESULT` outside
`Spinning`, `DECELERATE` outside `Spinning`/`Decelerating`, `GRAB` outside
`Decelerating`, `REVEAL` outside `Grabbing`/`Lifting`, `CLAIM` outside
`Reveal`.  (`RESET`, `SET_CURRENT_X` and `ERROR` are valid from any state.) -/
def invalidDispatch (s : ClawMachineInternalState)
    (a : ClawMachineAction) : Prop :=
  match a with
  | .play => s.state ≠ .idle
  | .attachResult _ => s.state ≠ .spinning
  | .decelerate => s.state ≠ .spinning ∧ s.state ≠ .decelerating
  | .grab => s.state ≠ .decelerating
  | .reveal => s.state ≠ .grabbing ∧ s.state ≠ .lifting
  | .claim _ => s.state ≠ .reveal
  | .reset => False
  | .setCurrentX _ => False
  | .error _ => False

instance (s : ClawMachineInternalState) (a : ClawMachineAction) :
    Decidable (invalidDispatch s a) := by
  cases a <;> { rw [invalidDispatch]; infer_instance }

/-- C4: any event dispatched from a state the transition table does not
allow is a no-op: the reducer returns the record unchanged — every session
field (`state`, `playResult`, `claimResult`, `currentX`, `highlightId`,
`error`) identical — and, being a total function, it never throws.  In
particular a second `PLAY` while not `Idle` changes nothing. -/
theorem c4_reducer_invalid_noop (s : ClawMachineInternalState)
    (a : ClawMachineAction) (h : invalidDispatch s a) :
    clawMachineReducer s a = s := by
  cases a with
  | play =>
    rw [clawMachineReducer]
    exact if_pos h
  | attachResult payload =>
    rw [clawMachineReducer]
    exact if_pos h
  | decelerate =>
    rw [clawMachineReducer]
    exact if_pos h
  | grab =>
    rw [clawMachineReducer]
    exact if_pos h
  | reveal =>
    rw [clawMachineReducer]
    exact if_pos h
  | claim payload =>
    rw [clawMachineReducer]
    exact if_pos h
  | reset => exact absurd h not_false
  | setCurrentX payload => exact absurd h not_false
  | error payload => exact absurd h not_false

/-- Witness for C4: a second `PLAY` while `Spinning` leaves the session
unchanged. -/
theorem c4_reducer_invalid_noop_witness :
    clawMachineReducer
      { state := .spinning, playResult := none, claimResult := none,
        currentX := 7, highlightId := none, error := none }
      .play =
    { state := .spinning, playResult := none, claimResult := none,
      currentX := 7, highlightId := none, error := none } :=
  c4_reducer_invalid_noop _ .play (by decide)

/-! ## Weighted random draw (`selectWinningCard` in `ClawMachineV2.tsx`,
`selectPrizeByWeight` in `src/unnamed/part_007`) -/

/-- A candidate card with its weight attached (the `weightedCards` entries
of `selectWinningCard`). -/
structure WeightedCard where
  prizeId : String
  weight : ℚ
deriving DecidableEq

/-- `totalWeight = weightedCards.reduce((sum, card) => sum + card.weight, 0)`. -/
def totalWeight (cards : List WeightedCard) : ℚ :=
  cards.foldl (fun sum card => sum + card.weight) 0

/-- The selection loop: `random -= card.weight; if (random <= 0) return card`,
over the candidates in order; `none` when the loop falls through. -/
def weightedDrawLoop : List WeightedCard → ℚ → Option WeightedCard
  | [], _ => none
  | card :: rest, random =>
    if random - card.weight ≤ 0 then some card
    else weightedDrawLoop rest (random - card.weight)

/-- `selectWinningCard` / `selectPrizeByWeight`: draw with
`random = u * totalWeight` where `u` is the value of `Math.random()`
(injected here for determinism), falling back to the first candidate if the
loop falls through. -/
def selectWinningCard (cards : List WeightedCard) (u : ℚ) :
    Option WeightedCard :=
  match weightedDrawLoop cards (u * totalWeight cards) with
  | some card => some card
  | none => cards.head?

/-- C5: with two candidates of weights 1 and 0, the zero-weight candidate
stays in the candidate list handed to the loop, yet for every possible value
`u ∈ [0,1)` of the random source the draw selects the first candidate — so
1000 (or any number of) draws select it every time. -/
theorem c5_zero_weight_never_drawn (a b : WeightedCard) (u : ℚ)
    (ha : a.weight = 1) (hb : b.weight = 0)
    (_hu0 : 0 ≤ u) (hu1 : u < 1) :
    b ∈ [a, b] ∧ selectWinningCard [a, b] u = some a := by
  refine ⟨by simp, ?_⟩
  have htot : totalWeight [a, b] = 1 := by
    rw [totalWeight]
    simp [ha, hb]
  rw [selectWinningCard, htot, weightedDrawLoop]
  rw [if_pos (by rw [ha]; linarith)]

/-- Witness for C5 at `u = 1/2`. -/
theorem c5_zero_weight_never_drawn_witness :
    (WeightedCard.mk "loser" 0) ∈
      [WeightedCard.mk "winner" 1, WeightedCard.mk "loser" 0] ∧
    selectWinningCard
      [WeightedCard.mk "winner" 1, WeightedCard.mk "loser" 0] (1/2) =
      some (WeightedCard.mk "winner" 1) :=
  c5_zero_weight_never_drawn (WeightedCard.mk "winner" 1)
    (WeightedCard.mk "loser" 0) (1/2) rfl rfl (by norm_num) (by norm_num)

/-! ## Reel motion (`MultiRowSlider.tsx`): animation tick and freeze -/

/-- Per-row mutable state (`rowStates` entries in `MultiRowSlider.tsx`). -/
structure RowState where
  position : ℚ
  velocity : ℚ
  direction : ℤ
  frozen : Bool
deriving DecidableEq

/-- One `animate` tick for one row (`MultiRowSlider.tsx` lines 188–223):
frozen rows return early; otherwise
`position += velocity * direction`, then wrap by one `totalWidth`
(`cardWidth * items.length`) in either direction. -/
def tickRow (totalWidth : ℚ) (s : RowState) : RowState :=
  if s.frozen then s
  else
    let p := s.position + s.velocity * (s.direction : ℚ)
    let p' := if p ≥ totalWidth then p - totalWidth
              else if p < 0 then p + totalWidth else p
    { s with position := p' }

/-- `freeze()` applied to one row: `frozen = true; velocity = 0`. -/
def freezeRow (s : RowState) : RowState :=
  { s with frozen := true, velocity := 0 }

theorem tickRow_velocity (totalWidth : ℚ) (s : RowState) :
    (tickRow totalWidth s).velocity = s.velocity ∧
    (tickRow totalWidth s).direction = s.direction ∧
    (tickRow totalWidth s).frozen = s.frozen := by
  rw [tickRow]
  split <;> exact ⟨rfl, rfl, rfl⟩

/-- A single tick keeps `position` inside `[0, totalWidth)`, given
`0 ≤ velocity ≤ totalWidth` and `direction = ±1`. -/
theorem tickRow_position_mem (totalWidth : ℚ) (s : RowState)
    (hp0 : 0 ≤ s.position) (hp1 : s.position < totalWidth)
    (hv0 : 0 ≤ s.velocity) (hv1 : s.velocity ≤ totalWidth)
    (hd : s.direction = 1 ∨ s.direction = -1) :
    0 ≤ (tickRow totalWidth s).position ∧
    (tickRow totalWidth s).position < totalWidth := by
  rw [tickRow]
  split
  · exact ⟨hp0, hp1⟩
  · simp only
    rcases hd with hd | hd <;> rw [hd] <;> push_cast <;>
      split <;> rename_i h1 <;>
      first
      | (constructor <;> linarith)
      | (split <;> rename_i h2 <;> constructor <;> linarith)

/-- C7: starting from a position in `[0, totalWidth)` with per-tick
displacement `0 ≤ velocity ≤ totalWidth` and direction ±1, every number of
animation ticks leaves the position inside `[0, totalWidth)`. -/
theorem c7_tick_wrap_invariant (totalWidth : ℚ) (s : RowState)
    (hp0 : 0 ≤ s.position) (hp1 : s.position < totalWidth)
    (hv0 : 0 ≤ s.velocity) (hv1 : s.velocity ≤ totalWidth)
    (hd : s.direction = 1 ∨ s.direction = -1) :
    ∀ n : ℕ, 0 ≤ ((tickRow totalWidth)^[n] s).position ∧
      ((tickRow totalWidth)^[n] s).position < totalWidth := by
  intro n
  induction n generalizing s with
  | zero => exact ⟨hp0, hp1⟩
  | succ n ih =>
    rw [Function.iterate_succ_apply]
    obtain ⟨h0, h1⟩ := tickRow_position_mem totalWidth s hp0 hp1 hv0 hv1 hd
    obtain ⟨hv, hdir, -⟩ := tickRow_velocity totalWidth s
    exact ih (tickRow totalWidth s) h0 h1 (hv ▸ hv0) (hv ▸ hv1) (hdir ▸ hd)

/-- Witness for C7: `totalWidth = 100`, position 50, velocity 30,
direction +1, after 3 ticks. -/
theorem c7_tick_wrap_invariant_witness :
    0 ≤ ((tickRow 100)^[3] (RowState.mk 50 30 1 false)).position ∧
    ((tickRow 100)^[3] (RowState.mk 50 30 1 false)).position < 100 :=
  c7_tick_wrap_invariant 100 (RowState.mk 50 30 1 false)
    (by norm_num) (by norm_num) (by norm_num) (by norm_num) (Or.inl rfl) 3

/-- C10: a frozen row is untouched by the tick, so after `freeze()` any
number of ticks leaves every row exactly where it was: the state stays
`freezeRow s` and in particular its `position` stays `s.position`. -/
theorem c10_freeze_halts_motion (totalWidth : ℚ) (s : RowState) (n : ℕ) :
    (tickRow totalWidth)^[n] (freezeRow s) = freezeRow s ∧
    ((tickRow totalWidth)^[n] (freezeRow s)).position = s.position := by
  have hfrozen : (freezeRow s).frozen = true := rfl
  have hstep : tickRow totalWidth (freezeRow s) = freezeRow s := by
    rw [tickRow, if_pos hfrozen]
  have hiter : (tickRow totalWidth)^[n] (freezeRow s) = freezeRow s := by
    induction n with
    | zero => rfl
    | succ n ih => rw [Function.iterate_succ_apply, hstep, ih]
  exact ⟨hiter, by rw [hiter]; rfl⟩

/-! ## Grid snap and visible-card extraction (`MultiRowSlider.tsx`) -/

/-- A slider item (`SliderItem` in `MultiRowSlider.tsx`). -/
structure SliderItem where
  id : String
  prizeId : String
  imageUrl : String
  name : String
deriving DecidableEq

/-- One output entry of the per-row scan of `getVisibleCards`.  The code's
`VisibleCard` also carries `rowIndex` and `gridPosition`, presentation data
computed from `(row, col)` alone; they are omitted here. -/
structure VisibleCardEntry where
  colIndex : ℤ
  cardIndex : ℕ
  prizeId : String
deriving DecidableEq

/-- `cardWidth = cardSize + gapSize`. -/
def cardWidthOf (cardSize gap : ℚ) : ℚ := cardSize + gap

/-- `totalCardsWidth = targetVisibleCards * cardWidth - gapSize` with
`targetVisibleCards = 5`. -/
def totalCardsWidthOf (cardSize gap : ℚ) : ℚ := 5 * cardWidthOf cardSize gap - gap

/-- `leftMargin = (containerWidth - totalCardsWidth) / 2`. -/
def leftMarginOf (cardSize gap containerWidth : ℚ) : ℚ :=
  (containerWidth - totalCardsWidthOf cardSize gap) / 2

/-- `cardCenterX = (i * cardWidth - position) + cardWidth / 2` for the `i`-th
rendered card. -/
def cardCenterXOf (cardSize gap position : ℚ) (i : ℕ) : ℚ :=
  (i : ℚ) * cardWidthOf cardSize gap - position + cardWidthOf cardSize gap / 2

/-- `colIndex = Math.round((cardCenterX - visibleStartX) / cardWidth - 0.5)`. -/
def colIndexOf (cardSize gap containerWidth position : ℚ) (i : ℕ) : ℤ :=
  jsRound ((cardCenterXOf cardSize gap position i -
    leftMarginOf cardSize gap containerWidth) / cardWidthOf cardSize gap - 1/2)

/-- The entry pushed for rendered copy `i`:
`{colIndex, cardIndex: i % items.length, prizeId: items[originalIndex].prizeId}`. -/
def renderedEntry (items : List SliderItem) (colIndex : ℤ) (i : ℕ) :
    VisibleCardEntry :=
  ⟨colIndex, i % items.length,
    (items[i % items.length]?).elim "" SliderItem.prizeId⟩

/-- The loop body of the per-row scan in `getVisibleCards`
(`MultiRowSlider.tsx` lines 362–390): keep card `i` when its center lies in
the visible window and its column is one of 0–4 and the column is not
already taken (the triple render makes duplicates possible). -/
def visibleStep (items : List SliderItem) (cardSize gap containerWidth position : ℚ)
    (rowCards : List VisibleCardEntry) (i : ℕ) : List VisibleCardEntry :=
  if leftMarginOf cardSize gap containerWidth ≤ cardCenterXOf cardSize gap position i ∧
      cardCenterXOf cardSize gap position i ≤
        leftMarginOf cardSize gap containerWidth + totalCardsWidthOf cardSize gap then
    if 0 ≤ colIndexOf cardSize gap containerWidth position i ∧
        colIndexOf cardSize gap containerWidth position i < 5 then
      if rowCards.any (fun c =>
          c.colIndex == colIndexOf cardSize gap containerWidth position i) then
        rowCards
      else
        rowCards ++ [renderedEntry items
          (colIndexOf cardSize gap containerWidth position i) i]
    else rowCards
  else rowCards

/-- The per-row result of `getVisibleCards` (`MultiRowSlider.tsx` lines
335–400): scan the `items.length * 3` rendered copies, then
`rowCards.sort((a, b) => a.colIndex - b.colIndex)` (a stable ascending
sort, modelled by insertion sort). -/
def visibleRowCards (items : List SliderItem)
    (cardSize gap containerWidth position : ℚ) : List VisibleCardEntry :=
  ((List.range (items.length * 3)).foldl
      (visibleStep items cardSize gap containerWidth position) []).insertionSort
    (fun a b => a.colIndex ≤ b.colIndex)

/-- Card edge length in the observed configuration: container 1200×600,
3 rows with 12-pixel row gaps → row height `(600 - 2*12)/3 = 192` and
`cardSize = 192 * 0.85 = 163.2`. -/
def cardSizeObserved : ℚ := ((600 - (3 - 1) * 12) / 3) * (85/100)

/-- The `gapSize = 16` constant of `MultiRowSlider.tsx`. -/
def gapSize : ℚ := 16

/-- Truncation towards zero on rationals (what JavaScript `%` divides by). -/
def ratTrunc (q : ℚ) : ℤ := if 0 ≤ q then jsFloor q else -jsFloor (-q)

/-- JavaScript `%` on (finite) numbers: `a % n = a - n * trunc(a / n)`. -/
def jsFmod (a n : ℚ) : ℚ := a - n * (ratTrunc (a / n) : ℚ)

/-- One row of `snapPositionsToGrid` (`MultiRowSlider.tsx` lines 119–147):
round the position to the nearest card boundary, reduce it modulo
`totalWidth = cardWidth * items.length` with JavaScript `%`, and push a
negative representative back into range. -/
def snapRowPosition (cardSize gap : ℚ) (len : ℕ) (position : ℚ) : ℚ :=
  let cardWidth := cardWidthOf cardSize gap
  let totalWidth := cardWidth * (len : ℚ)
  let nearestCard := jsRound (position / cardWidth)
  let targetPosition := (nearestCard : ℚ) * cardWidth
  let normalizedPosition := jsFmod targetPosition totalWidth
  if normalizedPosition < 0 then normalizedPosition + totalWidth
  else normalizedPosition

theorem tmod_neg_arg (a b : ℤ) : Int.tmod (-a) b = -Int.tmod a b := by
  rw [Int.tmod_def, Int.tmod_def, Int.neg_tdiv]
  ring

theorem tmod_gt_neg (n L : ℤ) (hL : 0 < L) : -L < Int.tmod n L := by
  have h1 := Int.tmod_lt_of_pos (-n) hL
  have h2 := tmod_neg_arg n L
  rcases le_or_lt 0 n with hn | hn
  · have := Int.tmod_nonneg L hn
    omega
  · omega

/-- Truncated and Euclidean remainders differ by 0 or one divisor. -/
theorem emod_eq_tmod_or_tmod_add (n L : ℤ) (hL : 0 < L) :
    n % L = Int.tmod n L ∨ n % L = Int.tmod n L + L := by
  have h1 := Int.tdiv_add_tmod n L
  have h2 := Int.ediv_add_emod n L
  have hd : L * (Int.tdiv n L - n / L) = n % L - Int.tmod n L := by
    linear_combination h1 - h2
  have hb1 : 0 ≤ n % L := Int.emod_nonneg n (ne_of_gt hL)
  have hb2 : n % L < L := Int.emod_lt_of_pos n hL
  have hb3 : -L < Int.tmod n L := tmod_gt_neg n L hL
  have hb4 : Int.tmod n L < L := Int.tmod_lt_of_pos n hL
  have hdval : Int.tdiv n L - n / L = 0 ∨ Int.tdiv n L - n / L = 1 := by
    by_contra hno
    push_neg at hno
    obtain ⟨hne0, hne1⟩ := hno
    rcases lt_trichotomy (Int.tdiv n L - n / L) 0 with h | h | h
    · have hle : Int.tdiv n L - n / L ≤ -1 := by omega
      nlinarith
    · exact hne0 h
    · have hge : 2 ≤ Int.tdiv n L - n / L := by omega
      nlinarith
  rcases hdval with h | h
  · left
    rw [h, mul_zero] at hd
    omega
  · right
    rw [h, mul_one] at hd
    omega

theorem ratTrunc_intCast_div (n : ℤ) (len : ℕ) (hlen : 0 < len) :
    ratTrunc ((n : ℚ) / (len : ℚ)) = Int.tdiv n (len : ℤ) := by
  have hlenQ : (0 : ℚ) < (len : ℚ) := by exact_mod_cast hlen
  rcases le_or_lt 0 n with hn | hn
  · have hnQ : (0 : ℚ) ≤ (n : ℚ) := by exact_mod_cast hn
    rw [ratTrunc, if_pos (div_nonneg hnQ (le_of_lt hlenQ)), jsFloor_eq,
      Rat.floor_intCast_div_natCast, Int.tdiv_eq_ediv hn (by positivity)]
  · have hnQ : (n : ℚ) < 0 := by exact_mod_cast hn
    have hneg : ¬ (0 ≤ (n : ℚ) / (len : ℚ)) := by
      rw [not_le]
      exact div_neg_of_neg_of_pos hnQ hlenQ
    rw [ratTrunc, if_neg hneg, jsFloor_eq, ← neg_div,
      show (-(n : ℚ)) = ((-n : ℤ) : ℚ) by push_cast; ring,
      Rat.floor_intCast_div_natCast,
      show Int.tdiv n (len : ℤ) = -Int.tdiv (-n) (len : ℤ) by
        rw [Int.neg_tdiv, neg_neg],
      Int.tdiv_eq_ediv (by omega) (by positivity)]

/-- After snapping, a row's position is the card boundary
`(nearestCard mod len) * cardWidth` with a floored (non-negative) modulus. -/
theorem snapRowPosition_eq (cardSize gap : ℚ) (len : ℕ) (position : ℚ)
    (hcw : 0 < cardWidthOf cardSize gap) (hlen : 0 < len) :
    snapRowPosition cardSize gap len position =
      (((jsRound (position / cardWidthOf cardSize gap)) % (len : ℤ) : ℤ) : ℚ) *
        cardWidthOf cardSize gap := by
  simp only [cardWidthOf] at hcw ⊢
  have hlenZ : (0 : ℤ) < (len : ℤ) := by exact_mod_cast hlen
  have hlenQ : (0 : ℚ) < (len : ℚ) := by exact_mod_cast hlen
  set n := jsRound (position / (cardSize + gap)) with hn
  have hdivq : ((n : ℚ) * (cardSize + gap)) / ((cardSize + gap) * (len : ℚ)) =
      (n : ℚ) / (len : ℚ) := by
    rw [div_eq_div_iff (by positivity) (by positivity)]
    ring
  have hmodq : jsFmod ((n : ℚ) * (cardSize + gap))
      ((cardSize + gap) * (len : ℚ)) =
      ((Int.tmod n (len : ℤ) : ℤ) : ℚ) * (cardSize + gap) := by
    rw [jsFmod, hdivq, ratTrunc_intCast_div n len hlen, Int.tmod_def]
    push_cast
    ring
  have htmlt : Int.tmod n (len : ℤ) < (len : ℤ) := Int.tmod_lt_of_pos n hlenZ
  have hdisj := emod_eq_tmod_or_tmod_add n (len : ℤ) hlenZ
  rw [snapRowPosition, cardWidthOf]
  rw [hmodq]
  rcases le_or_lt 0 (Int.tmod n (len : ℤ)) with htm | htm
  · have hcond : ¬ (((Int.tmod n (len : ℤ) : ℤ) : ℚ) * (cardSize + gap) < 0) := by
      push_neg
      have : (0 : ℚ) ≤ ((Int.tmod n (len : ℤ) : ℤ) : ℚ) := by exact_mod_cast htm
      positivity
    rw [if_neg hcond]
    have h4 : n % (len : ℤ) < (len : ℤ) := Int.emod_lt_of_pos n hlenZ
    have hemod : n % (len : ℤ) = Int.tmod n (len : ℤ) := by
      rcases hdisj with h | h
      · exact h
      · omega
    rw [hemod]
  · have hcond : ((Int.tmod n (len : ℤ) : ℤ) : ℚ) * (cardSize + gap) < 0 := by
      have h1 : ((Int.tmod n (len : ℤ) : ℤ) : ℚ) < 0 := by exact_mod_cast htm
      exact mul_neg_of_neg_of_pos h1 hcw
    rw [if_pos hcond]
    have h3 : 0 ≤ n % (len : ℤ) := Int.emod_nonneg n (ne_of_gt hlenZ)
    have hemod : n % (len : ℤ) = Int.tmod n (len : ℤ) + (len : ℤ) := by
      rcases hdisj with h | h
      · omega
      · exact h
    rw [hemod]
    push_cast
    ring

theorem cardWidthObserved : cardWidthOf cardSizeObserved gapSize = 896/5 := by
  norm_num [cardWidthOf, cardSizeObserved, gapSize]

theorem totalCardsWidthObserved : totalCardsWidthOf cardSizeObserved gapSize = 880 := by
  norm_num [totalCardsWidthOf, cardWidthOf, cardSizeObserved, gapSize]

theorem leftMarginObserved : leftMarginOf cardSizeObserved gapSize 1200 = 160 := by
  norm_num [leftMarginOf, totalCardsWidthOf, cardWidthOf, cardSizeObserved, gapSize]

theorem cardCenterXOf_shift (cS g : ℚ) (j t : ℕ) :
    cardCenterXOf cS g ((j : ℚ) * cardWidthOf cS g) (j + t) =
      (t : ℚ) * cardWidthOf cS g + cardWidthOf cS g / 2 := by
  rw [cardCenterXOf]
  push_cast
  ring

theorem cardCenterXOf_le_of_le (cS g : ℚ) (hg : 0 ≤ cardWidthOf cS g)
    (j i : ℕ) (h : i ≤ j) :
    cardCenterXOf cS g ((j : ℚ) * cardWidthOf cS g) i ≤ cardWidthOf cS g / 2 := by
  rw [cardCenterXOf]
  have hji : (i : ℚ) ≤ (j : ℚ) := by exact_mod_cast h
  have hprod : 0 ≤ ((j : ℚ) - (i : ℚ)) * cardWidthOf cS g :=
    mul_nonneg (by linarith) hg
  nlinarith

theorem cardCenterXOf_ge_of_ge (cS g : ℚ) (hg : 0 ≤ cardWidthOf cS g)
    (j i : ℕ) (h : j + 6 ≤ i) :
    6 * cardWidthOf cS g + cardWidthOf cS g / 2 ≤
      cardCenterXOf cS g ((j : ℚ) * cardWidthOf cS g) i := by
  rw [cardCenterXOf]
  have hji : (j : ℚ) + 6 ≤ (i : ℚ) := by exact_mod_cast h
  have hprod : 0 ≤ ((i : ℚ) - (j : ℚ) - 6) * cardWidthOf cS g :=
    mul_nonneg (by linarith) hg
  nlinarith

theorem visibleStep_skip_low (items : List SliderItem) (j i : ℕ) (h : i ≤ j)
    (acc : List VisibleCardEntry) :
    visibleStep items cardSizeObserved gapSize 1200
      ((j : ℚ) * cardWidthOf cardSizeObserved gapSize) acc i = acc := by
  rw [visibleStep, if_neg]
  rintro ⟨hc1, -⟩
  have h2 := cardCenterXOf_le_of_le cardSizeObserved gapSize
    (by rw [cardWidthObserved]; norm_num) j i h
  rw [leftMarginObserved, cardWidthObserved] at hc1
  rw [cardWidthObserved] at h2
  linarith

theorem visibleStep_skip_high (items : List SliderItem) (j i : ℕ)
    (h : j + 6 ≤ i) (acc : List VisibleCardEntry) :
    visibleStep items cardSizeObserved gapSize 1200
      ((j : ℚ) * cardWidthOf cardSizeObserved gapSize) acc i = acc := by
  rw [visibleStep, if_neg]
  rintro ⟨-, hc2⟩
  have h2 := cardCenterXOf_ge_of_ge cardSizeObserved gapSize
    (by rw [cardWidthObserved]; norm_num) j i h
  rw [leftMarginObserved, totalCardsWidthObserved, cardWidthObserved] at hc2
  rw [cardWidthObserved] at h2
  linarith

theorem window_pass_observed (j t : ℕ) (h1 : 1 ≤ t) (h5 : t ≤ 5) :
    leftMarginOf cardSizeObserved gapSize 1200 ≤
      cardCenterXOf cardSizeObserved gapSize
        ((j : ℚ) * cardWidthOf cardSizeObserved gapSize) (j + t) ∧
    cardCenterXOf cardSizeObserved gapSize
        ((j : ℚ) * cardWidthOf cardSizeObserved gapSize) (j + t) ≤
      leftMarginOf cardSizeObserved gapSize 1200 +
        totalCardsWidthOf cardSizeObserved gapSize := by
  rw [cardCenterXOf_shift, leftMarginObserved, totalCardsWidthObserved,
    cardWidthObserved]
  have ht1 : (1 : ℚ) ≤ (t : ℚ) := by exact_mod_cast h1
  have ht5 : (t : ℚ) ≤ 5 := by exact_mod_cast h5
  constructor <;> linarith

theorem colIndexOf_observed (j t : ℕ) :
    colIndexOf cardSizeObserved gapSize 1200
      ((j : ℚ) * cardWidthOf cardSizeObserved gapSize) (j + t) = (t : ℤ) - 1 := by
  rw [colIndexOf, cardCenterXOf_shift, leftMarginObserved, cardWidthObserved,
    jsRound_eq]
  have harg : ((t : ℚ) * (896/5) + (896/5) / 2 - 160) / (896/5) - 1/2 + 1/2 =
      (((t : ℤ) - 1 : ℤ) : ℚ) + 17/28 := by
    push_cast
    ring
  rw [harg, Int.floor_int_add]
  norm_num

theorem visibleStep_accept (items : List SliderItem) (j t : ℕ)
    (h1 : 1 ≤ t) (h5 : t ≤ 5) (acc : List VisibleCardEntry)
    (hnodup : acc.any (fun c => c.colIndex == (t : ℤ) - 1) = false) :
    visibleStep items cardSizeObserved gapSize 1200
        ((j : ℚ) * cardWidthOf cardSizeObserved gapSize) acc (j + t) =
      acc ++ [renderedEntry items ((t : ℤ) - 1) (j + t)] := by
  rw [visibleStep, if_pos (window_pass_observed j t h1 h5), colIndexOf_observed]
  rw [if_pos (by omega : (0 : ℤ) ≤ (t : ℤ) - 1 ∧ (t : ℤ) - 1 < 5)]
  rw [if_neg (by rw [hnodup]; exact Bool.false_ne_true)]

theorem foldl_visibleStep_id (items : List SliderItem) (cS g cW p : ℚ)
    (l : List ℕ)
    (h : ∀ i ∈ l, ∀ acc : List VisibleCardEntry,
      visibleStep items cS g cW p acc i = acc) :
    ∀ acc, l.foldl (visibleStep items cS g cW p) acc = acc := by
  induction l with
  | nil => intro acc; rfl
  | cons x xs ih =>
    intro acc
    rw [List.foldl_cons, h x (List.mem_cons_self x xs)]
    exact ih (fun i hi acc2 => h i (List.mem_cons_of_mem x hi) acc2) acc

/-- At a snapped position `j * cardWidth` (observed geometry, catalog of at
least 3 items), the row scan collects exactly the five rendered copies
`j+1 … j+5`, in columns 0–4 and already column-sorted. -/
theorem visibleRowCards_at_multiple (items : List SliderItem) (j : ℕ)
    (hlen : 3 ≤ items.length) (hj : j < items.length) :
    visibleRowCards items cardSizeObserved gapSize 1200
        ((j : ℚ) * cardWidthOf cardSizeObserved gapSize) =
      [renderedEntry items 0 (j + 1), renderedEntry items 1 (j + 2),
       renderedEntry items 2 (j + 3), renderedEntry items 3 (j + 4),
       renderedEntry items 4 (j + 5)] := by
  rw [visibleRowCards]
  have hsplit : items.length * 3 = (j + 1) + (5 + (items.length * 3 - (j + 6))) := by
    omega
  rw [hsplit, List.range_add, List.foldl_append]
  have hc1 : List.foldl
      (visibleStep items cardSizeObserved gapSize 1200
        ((j : ℚ) * cardWidthOf cardSizeObserved gapSize)) []
      (List.range (j + 1)) = [] :=
    foldl_visibleStep_id items _ _ _ _ (List.range (j + 1))
      (fun i hi acc =>
        visibleStep_skip_low items j i (by
          have := List.mem_range.mp hi
          omega) acc) []
  rw [hc1, List.range_add, List.map_append, List.foldl_append]
  have hmid : List.map (fun x => (j + 1) + x) (List.range 5) =
      [j + 1, j + 2, j + 3, j + 4, j + 5] := by
    simp [List.range_succ]
  rw [hmid]
  rw [List.foldl_cons,
    visibleStep_accept items j 1 (by norm_num) (by norm_num) [] (by simp)]
  rw [List.foldl_cons,
    visibleStep_accept items j 2 (by norm_num) (by norm_num) _
      (by norm_num [renderedEntry])]
  rw [List.foldl_cons,
    visibleStep_accept items j 3 (by norm_num) (by norm_num) _
      (by norm_num [renderedEntry])]
  rw [List.foldl_cons,
    visibleStep_accept items j 4 (by norm_num) (by norm_num) _
      (by norm_num [renderedEntry])]
  rw [List.foldl_cons,
    visibleStep_accept items j 5 (by norm_num) (by norm_num) _
      (by norm_num [renderedEntry])]
  rw [List.foldl_nil]
  have hc3 : ∀ acc, List.foldl
      (visibleStep items cardSizeObserved gapSize 1200
        ((j : ℚ) * cardWidthOf cardSizeObserved gapSize)) acc
      (List.map (fun x => (j + 1) + x) (List.map (fun x => 5 + x)
        (List.range (items.length * 3 - (j + 6))))) = acc := by
    intro acc
    refine foldl_visibleStep_id items _ _ _ _ _ (fun i hi acc2 => ?_) acc
    obtain ⟨y, hy, rfl⟩ := List.mem_map.mp hi
    obtain ⟨x, hx, rfl⟩ := List.mem_map.mp hy
    exact visibleStep_skip_high items j _ (by omega) acc2
  rw [hc3]
  have hflat : (((([] ++ [renderedEntry items (((1 : ℕ) : ℤ) - 1) (j + 1)]) ++
      [renderedEntry items (((2 : ℕ) : ℤ) - 1) (j + 2)]) ++
      [renderedEntry items (((3 : ℕ) : ℤ) - 1) (j + 3)]) ++
      [renderedEntry items (((4 : ℕ) : ℤ) - 1) (j + 4)]) ++
      [renderedEntry items (((5 : ℕ) : ℤ) - 1) (j + 5)] =
      [renderedEntry items 0 (j + 1), renderedEntry items 1 (j + 2),
       renderedEntry items 2 (j + 3), renderedEntry items 3 (j + 4),
       renderedEntry items 4 (j + 5)] := by
    norm_num
  rw [hflat]
  have hsorted : List.Sorted (fun a b : VisibleCardEntry =>
      a.colIndex ≤ b.colIndex)
      [renderedEntry items 0 (j + 1), renderedEntry items 1 (j + 2),
       renderedEntry items 2 (j + 3), renderedEntry items 3 (j + 4),
       renderedEntry items 4 (j + 5)] := by
    norm_num [List.sorted_cons, renderedEntry]
  exact List.Sorted.insertionSort_eq hsorted

/-- After `snapPositionsToGrid`, a row position is a card boundary inside
`[0, totalWidth)`. -/
theorem snapRowPosition_mem (cardSize gap : ℚ) (len : ℕ) (position : ℚ)
    (hcw : 0 < cardWidthOf cardSize gap) (hlen : 0 < len) :
    ∃ j : ℕ, j < len ∧
      snapRowPosition cardSize gap len position =
        (j : ℚ) * cardWidthOf cardSize gap := by
  have hlenZ : (0 : ℤ) < (len : ℤ) := by exact_mod_cast hlen
  have h1 : 0 ≤ (jsRound (position / cardWidthOf cardSize gap)) % (len : ℤ) :=
    Int.emod_nonneg _ (ne_of_gt hlenZ)
  have h2 : (jsRound (position / cardWidthOf cardSize gap)) % (len : ℤ) <
      (len : ℤ) := Int.emod_lt_of_pos _ hlenZ
  refine ⟨((jsRound (position / cardWidthOf cardSize gap)) % (len : ℤ)).toNat,
    by omega, ?_⟩
  rw [snapRowPosition_eq cardSize gap len position hcw hlen]
  congr 1
  exact_mod_cast (Int.toNat_of_nonneg h1).symm

/-- C9 amended: in the observed geometry (container 1200×600, card size
163.2, gap 16) with a catalog of at least 3 items, `getVisibleCards` applied
to a row position produced by `snapToGrid` yields exactly 5 entries whose
columns are strictly increasing 0,1,2,3,4 — one entry per column, so no
rendered copy is duplicated within a column. -/
theorem c9_after_snap_five_columns (items : List SliderItem) (p : ℚ)
    (hlen : 3 ≤ items.length) :
    (visibleRowCards items cardSizeObserved gapSize 1200
        (snapRowPosition cardSizeObserved gapSize items.length p)).map
      VisibleCardEntry.colIndex = [0, 1, 2, 3, 4] := by
  obtain ⟨j, hj, heq⟩ := snapRowPosition_mem cardSizeObserved gapSize
    items.length p (by rw [cardWidthObserved]; norm_num) (by omega)
  rw [heq, visibleRowCards_at_multiple items j hlen hj]
  simp [renderedEntry]

/-- A concrete 3-item catalog for C9 evaluations. -/
def c9Items : List SliderItem :=
  [⟨"i0", "p0", "u0", "n0"⟩, ⟨"i1", "p1", "u1", "n1"⟩,
   ⟨"i2", "p2", "u2", "n2"⟩]

/-- Witness for C9 (amended) at the concrete 3-item catalog, pre-snap
position 100. -/
theorem c9_after_snap_five_columns_witness :
    3 ≤ c9Items.length ∧
    (visibleRowCards c9Items cardSizeObserved gapSize 1200
        (snapRowPosition cardSizeObserved gapSize c9Items.length 100)).map
      VisibleCardEntry.colIndex = [0, 1, 2, 3, 4] :=
  ⟨by decide, c9_after_snap_five_columns c9Items 100 (by decide)⟩

/-- C9 counterexample: at the un-snapped position `109.8` the same scan
returns a **partial list of 4 entries** (columns 0–3) — it does not signal
any `NotAligned` condition; no such signal exists in the code, whose only
outputs are plain (possibly partial or empty) lists. -/
theorem c9_counterexample :
    (visibleRowCards c9Items cardSizeObserved gapSize 1200 (549/5)).length = 4 ∧
    (visibleRowCards c9Items cardSizeObserved gapSize 1200 (549/5)).length ≠ 5 := by
  have heval : visibleRowCards c9Items cardSizeObserved gapSize 1200 (549/5) =
      [renderedEntry c9Items 0 2, renderedEntry c9Items 1 3,
       renderedEntry c9Items 2 4, renderedEntry c9Items 3 5] := by
    rw [visibleRowCards]
    norm_num [c9Items, List.range_succ, visibleStep, colIndexOf, cardCenterXOf,
      leftMarginOf, totalCardsWidthOf, cardWidthOf, cardSizeObserved, gapSize,
      jsRound_eq, renderedEntry, List.insertionSort, List.orderedInsert,
      Int.floor_eq_iff]
  rw [heval]
  exact ⟨rfl, by norm_num⟩

end Spinner
